import Mathlib

/-!
Shallow embedding of the Pokedex backend (src/backend.py).

The sqlite database is modelled as `State := Option (List Record)`:
`none` means the `pokemon` table does not exist, `some rows` means the
table exists and holds `rows` in insertion order (which is the order in
which sqlite's full-table scans return them for this table).  Every SQL
statement the Python module executes is a constructor of `SqlCmd`, run by
`exec`; each Python function is a Lean function built from `exec` exactly
as the Python builds on `cur.execute`.  Python exceptions are modelled by
`Except`/`Option` results.
-/

namespace Pokedex

/-- Modelled from the spec: `const.SEP`, the dataset's field separator
(the module `const` is not part of the repository sources); the spec
calls it "a configured single-character separator" and its scenario data
is comma-separated. -/
def SEP : Char := ','

/-- Models Python `str.lower()`: lower-case every character (the dataset
is ASCII, where `Char.toLower` agrees with Python). -/
def pyLower (s : String) : String :=
  ⟨s.data.map Char.toLower⟩

/-- Models Python `str.strip()`: remove leading and trailing whitespace
(as the loop variable `line` still carries its trailing newline). -/
def pyStrip (s : String) : String :=
  ⟨((s.data.dropWhile Char.isWhitespace).reverse.dropWhile
      Char.isWhitespace).reverse⟩

/-- Splits a character list at every occurrence of `sep`; the result
always has one more part than there are separators, so empty parts are
kept, as with Python `str.split(sep)`. -/
def splitChar (sep : Char) : List Char → List (List Char)
  | [] => [[]]
  | c :: cs =>
    match splitChar sep cs with
    | [] => [[c]]
    | g :: gs => if c == sep then [] :: g :: gs else (c :: g) :: gs

/-- Models Python `str.split(sep)` for a one-character separator `sep`:
`"a,,b".split(",") == ["a", "", "b"]` and `"".split(",") == [""]`. -/
def pySplit (s : String) (sep : Char) : List String :=
  (splitChar sep s.data).map List.asString

/-- One row of the `pokemon` table, with the nine columns of
`CREATE TABLE pokemon (name TEXT, species_id INTEGER, height REAL,
weight REAL, type_1 TEXT, type_2 TEXT, url_image TEXT,
generation_id INTEGER, evolves_from_species_id TEXT)`.
sqlite REAL values are modelled as exact rationals: the backend never
computes with them, it only stores and returns them. -/
structure Record where
  name : String
  species_id : Int
  height : Rat
  weight : Rat
  type_1 : String
  type_2 : String
  url_image : String
  generation_id : Int
  evolves_from_species_id : String
deriving DecidableEq, Repr

/-- Database state: `none` when the `pokemon` table does not exist,
`some rows` when it exists with the given rows in insertion order. -/
abbrev State := Option (List Record)

instance {ε α : Type} [DecidableEq ε] [DecidableEq α] :
    DecidableEq (Except ε α) := fun a b =>
  match a, b with
  | .ok x, .ok y =>
    if h : x = y then .isTrue (by rw [h]) else .isFalse (by simp [h])
  | .error e, .error f =>
    if h : e = f then .isTrue (by rw [h]) else .isFalse (by simp [h])
  | .ok _, .error _ => .isFalse (by simp)
  | .error _, .ok _ => .isFalse (by simp)

/-- Python exceptions raised by the backend's query paths:
`sqlite3.OperationalError` (no such table) and `IndexError`
(`data[0]` on an empty result list). -/
inductive PyError where
  | operationalError
  | indexError
deriving DecidableEq, Repr

/-- The SQL statements executed by src/backend.py. -/
inductive SqlCmd where
  | dropTableIfExists
  | createTable
  | insertRow (r : Record)
  | selectAll
  | selectWhereName (name : String)
  | selectWhereId (species_id : Int)
  | selectWhereType (t : String)

/-- Effect of one SQL statement on the database state, returning the
fetched rows (empty for non-SELECT statements).  A statement touching a
missing table raises `sqlite3.OperationalError`. -/
def exec : SqlCmd → State → Except PyError (List Record) × State
  | .dropTableIfExists, _ => (.ok [], none)
  | .createTable, st =>
    match st with
    | some _ => (.error .operationalError, st)
    | none => (.ok [], some [])
  | .insertRow r, st =>
    match st with
    | none => (.error .operationalError, st)
    | some rows => (.ok [], some (rows ++ [r]))
  | .selectAll, st =>
    match st with
    | none => (.error .operationalError, st)
    | some rows => (.ok rows, st)
  | .selectWhereName n, st =>
    match st with
    | none => (.error .operationalError, st)
    | some rows => (.ok (rows.filter (fun r => r.name == n)), st)
  | .selectWhereId i, st =>
    match st with
    | none => (.error .operationalError, st)
    | some rows => (.ok (rows.filter (fun r => r.species_id == i)), st)
  | .selectWhereType t, st =>
    match st with
    | none => (.error .operationalError, st)
    | some rows =>
      (.ok (rows.filter (fun r => r.type_1 == t || r.type_2 == t)), st)

/-- Code-point lexicographic comparison of character lists, the order
Python uses to compare strings (proved below to agree with `≤` on
`String`). -/
def charListLe : List Char → List Char → Bool
  | [], _ => true
  | _ :: _, [] => false
  | a :: as, b :: bs =>
    if a < b then true else if b < a then false else charListLe as bs

/-- Python's `<=` on strings. -/
def strLe (a b : String) : Bool :=
  charListLe a.data b.data

/-- Python's `sorted` on a list of strings: ascending in code-point
lexicographic order.  Since that order is total and antisymmetric the
sorted rearrangement is unique, so any correct sort models Python's;
insertion sort is used because it is structurally recursive. -/
def sortedStr (l : List String) : List String :=
  l.insertionSort (fun a b => strLe a b = true)

/-- Python's `sorted` on a list of integers. -/
def sortedInt (l : List Int) : List Int :=
  l.insertionSort (· ≤ ·)

/-- Embeds `table_exists(cur)`: `SELECT * FROM pokemon`, returning
`False` on `OperationalError`, else whether `fetchone()` found a row. -/
def table_exists (st : State) : Bool × State :=
  match exec .selectAll st with
  | (.error _, st') => (false, st')
  | (.ok rows, st') => (!rows.isEmpty, st')

/-- Embeds `get_pokemon_names(cur)`: `SELECT name FROM pokemon`, collect
the first column of every fetched row, return `sorted(new_list)`. -/
def get_pokemon_names (st : State) : Except PyError (List String) × State :=
  match exec .selectAll st with
  | (.error e, st') => (.error e, st')
  | (.ok rows, st') => (.ok (sortedStr (rows.map Record.name)), st')

/-- Embeds `get_stats_by_name(name, cur)`:
`SELECT ... FROM pokemon WHERE name = (?)` then `data[0]`
(`IndexError` when no row matched). -/
def get_stats_by_name (name : String) (st : State) :
    Except PyError Record × State :=
  match exec (.selectWhereName name) st with
  | (.error e, st') => (.error e, st')
  | (.ok data, st') =>
    match data with
    | [] => (.error .indexError, st')
    | r :: _ => (.ok r, st')

/-- Embeds `get_pokemon_ids(cur)`: `SELECT species_id FROM pokemon`,
collect the first column, return `sorted(new_list)`. -/
def get_pokemon_ids (st : State) : Except PyError (List Int) × State :=
  match exec .selectAll st with
  | (.error e, st') => (.error e, st')
  | (.ok rows, st') => (.ok (sortedInt (rows.map Record.species_id)), st')

/-- Embeds `get_stats_by_id(species_id, cur)`:
`SELECT ... FROM pokemon WHERE species_id = (?)` then `data[0]`. -/
def get_stats_by_id (species_id : Int) (st : State) :
    Except PyError Record × State :=
  match exec (.selectWhereId species_id) st with
  | (.error e, st') => (.error e, st')
  | (.ok data, st') =>
    match data with
    | [] => (.error .indexError, st')
    | r :: _ => (.ok r, st')

/-- Embeds `unique_and_sort(ell)` = `sorted(set(ell))`: Python's `set`
keeps one copy of each element (order immaterial, `dedup` here), then
`sorted` orders them ascending. -/
def unique_and_sort (ell : List String) : List String :=
  sortedStr ell.dedup

/-- Python's `if element not in new_list: new_list.append(element)`. -/
def addIfNew (acc : List String) (x : String) : List String :=
  if x ∈ acc then acc else acc ++ [x]

/-- Embeds `get_pokemon_types(cur)`: `SELECT type_1, type_2 FROM pokemon`,
append each of the two columns of each row if not already collected, then
`unique_and_sort`. -/
def get_pokemon_types (st : State) : Except PyError (List String) × State :=
  match exec .selectAll st with
  | (.error e, st') => (.error e, st')
  | (.ok rows, st') =>
    let new_list :=
      rows.foldl (fun acc r => addIfNew (addIfNew acc r.type_1) r.type_2) []
    (.ok (unique_and_sort new_list), st')

/-- Embeds `get_pokemon_by_type(pokemon_type, cur)`:
`SELECT name FROM pokemon WHERE type_1 = (?) OR type_2 = (?)`, collect the
first column, then `unique_and_sort`. -/
def get_pokemon_by_type (pokemon_type : String) (st : State) :
    Except PyError (List String) × State :=
  match exec (.selectWhereType pokemon_type) st with
  | (.error e, st') => (.error e, st')
  | (.ok data, st') => (.ok (unique_and_sort (data.map Record.name)), st')

/-- Whether a character list is one or more decimal digits. -/
def isDigits (cs : List Char) : Bool :=
  !cs.isEmpty && cs.all Char.isDigit

/-- Numeric value of a list of decimal digits. -/
def natOfDigits (cs : List Char) : Nat :=
  cs.foldl (fun n c => n * 10 + (c.toNat - 48)) 0

/-- The value of a string of decimal digits, `none` otherwise. -/
def strToNat (s : String) : Option Nat :=
  if isDigits s.data then some (natOfDigits s.data) else none

/-- Models Python `int(s)` on the string arguments this dataset uses:
optional surrounding whitespace, an optional sign, then decimal digits
(`None` on anything else, modelling `ValueError`). -/
def parse_int (s : String) : Option Int :=
  match (pyStrip s).data with
  | '-' :: rest => (strToNat (List.asString rest)).map (fun n => -(n : Int))
  | '+' :: rest => (strToNat (List.asString rest)).map Int.ofNat
  | _ => (strToNat (pyStrip s)).map Int.ofNat

/-- Numerator and denominator of an unsigned decimal literal, written as
an integer part, an optional point and a fractional part, with at least
one digit overall. -/
def parseUnsignedParts (s : String) : Option (Nat × Nat) :=
  match pySplit s '.' with
  | [a] => (strToNat a).map (fun n => (n, 1))
  | [a, b] =>
    if a.data.isEmpty && b.data.isEmpty then none
    else if (a.data.isEmpty || isDigits a.data)
        && (b.data.isEmpty || isDigits b.data) then
      some (((strToNat a).getD 0) * 10 ^ b.length + (strToNat b).getD 0,
        10 ^ b.length)
    else none
  | _ => none

/-- Models Python `float(s)` on the plain decimal literals this dataset
uses: optional surrounding whitespace, optional sign, decimal digits with
an optional fractional part, as the exact rational the literal denotes
(exponents, `inf` and `nan` are not modelled; `None` models
`ValueError`). -/
def parse_float (s : String) : Option Rat :=
  match (pyStrip s).data with
  | '-' :: rest =>
    (parseUnsignedParts (List.asString rest)).map
      (fun p => mkRat (-(p.1 : Int)) p.2)
  | '+' :: rest =>
    (parseUnsignedParts (List.asString rest)).map
      (fun p => mkRat (p.1 : Int) p.2)
  | _ => (parseUnsignedParts (pyStrip s)).map (fun p => mkRat (p.1 : Int) p.2)

/-- The dict built by `parse_header`: the positional index of each of the
nine required column names in the CSV header row. -/
structure HeaderDict where
  pokemon : Nat
  species_id : Nat
  height : Nat
  weight : Nat
  type_1 : Nat
  type_2 : Nat
  url_image : Nat
  generation_id : Nat
  evolves_from_species_id : Nat
deriving DecidableEq, Repr

/-- The `columns` list of `parse_header`. -/
def requiredColumns : List String :=
  ["pokemon", "species_id", "height", "weight", "type_1", "type_2",
   "url_image", "generation_id", "evolves_from_species_id"]

/-- Embeds `parse_header(f)`: split the stripped first line on the
separator and look up the index of each required column with
`list.index` (`None` models the `ValueError` raised when a column is
missing, which the spec surfaces as `SchemaError`). -/
def parse_header (firstLine : String) : Option HeaderDict := do
  let header := pySplit (pyStrip firstLine) SEP
  let pokemon ← header.indexOf? "pokemon"
  let species_id ← header.indexOf? "species_id"
  let height ← header.indexOf? "height"
  let weight ← header.indexOf? "weight"
  let type_1 ← header.indexOf? "type_1"
  let type_2 ← header.indexOf? "type_2"
  let url_image ← header.indexOf? "url_image"
  let generation_id ← header.indexOf? "generation_id"
  let evolves_from_species_id ← header.indexOf? "evolves_from_species_id"
  pure ⟨pokemon, species_id, height, weight, type_1, type_2, url_image,
    generation_id, evolves_from_species_id⟩

/-- Embeds the per-line body of the loop in `create_table`:
`line.strip().split(const.SEP)`, field extraction by header index
(`None` models `IndexError`), numeric coercion (`None` models
`ValueError`) and lower-casing of every string field. -/
def parse_row (hd : HeaderDict) (rawLine : String) : Option Record := do
  let fields := pySplit (pyStrip rawLine) SEP
  let pokemon ← fields[hd.pokemon]?
  let pokemon := pyLower pokemon
  let species_id_s ← fields[hd.species_id]?
  let species_id ← parse_int species_id_s
  let height_s ← fields[hd.height]?
  let height ← parse_float height_s
  let weight_s ← fields[hd.weight]?
  let weight ← parse_float weight_s
  let type_1 ← fields[hd.type_1]?
  let type_1 := pyLower type_1
  let type_2 ← fields[hd.type_2]?
  let type_2 := pyLower type_2
  let url_image ← fields[hd.url_image]?
  let url_image := pyLower url_image
  let generation_id_s ← fields[hd.generation_id]?
  let generation_id ← parse_int generation_id_s
  let evolves_from_species_id ← fields[hd.evolves_from_species_id]?
  let evolves_from_species_id := pyLower evolves_from_species_id
  pure ⟨pokemon, species_id, height, weight, type_1, type_2, url_image,
    generation_id, evolves_from_species_id⟩

/-- Failures of `create_table` as the spec classifies them:
`schemaError` for the `ValueError` of `parse_header` (a required column
is missing), `rowError` for a failure while processing a data line
(`ValueError` of `int`/`float`, spec `ParseError`, or `IndexError` on a
short line). -/
inductive LoadError where
  | schemaError
  | rowError
deriving DecidableEq, Repr

/-- The `for line in f` loop of `create_table`: parse each line and
execute one `INSERT INTO pokemon VALUES (...)` for it. -/
def insertRows (hd : HeaderDict) : List String → State → Except LoadError State
  | [], st => .ok st
  | line :: rest, st =>
    match parse_row hd line with
    | none => .error .rowError
    | some r =>
      match exec (.insertRow r) st with
      | (.error _, _) => .error .rowError
      | (.ok _, st') => insertRows hd rest st'

/-- The first line returned by `f.readline()` (the empty string on an
empty file). -/
def headLine : List String → String
  | [] => ""
  | l :: _ => l

/-- Embeds `create_table(csv_filename, con, cur)`: `DROP TABLE IF EXISTS
pokemon`, `CREATE TABLE pokemon (...)`, `parse_header`, then one insert
per remaining line of the file (given as its list of lines). -/
def create_table (lines : List String) (st : State) : Except LoadError State :=
  let st1 := (exec .dropTableIfExists st).2
  match exec .createTable st1 with
  | (.error _, _) => .error .rowError
  | (.ok _, st2) =>
    match parse_header (headLine lines) with
    | none => .error .schemaError
    | some hd => insertRows hd lines.tail st2

/-- A small CSV sample used to exercise the theorems on concrete data:
identity column order, one data row with upper-case strings. -/
def csvSample : List String :=
  ["pokemon,species_id,height,weight,type_1,type_2,url_image," ++
     "generation_id,evolves_from_species_id",
   "A,1,2,3,B,C,D,4,E"]

/-- The record that loading `csvSample` stores. -/
def recSample : Record :=
  ⟨"a", 1, 2, 3, "b", "c", "d", 4, "e"⟩

/-- The CSV of the spec's scenario: the name column second, one
Bulbasaur data row with a trailing empty field. -/
def csv9 : List String :=
  ["species_id,pokemon,height,weight,type_1,type_2,url_image," ++
     "generation_id,evolves_from_species_id",
   "1,Bulbasaur,0.7,6.9,Grass,Poison,http://x,1,"]

/-- The record the scenario expects: all strings lower-cased, numbers
coerced, empty `evolves_from_species_id` kept as the empty string. -/
def bulbasaur : Record :=
  ⟨"bulbasaur", 1, mkRat 7 10, mkRat 69 10, "grass", "poison", "http://x",
   1, ""⟩

end Pokedex

/-!
Auxiliary lemmas about the embedding.
-/

namespace Pokedex

/-- Lower-casing a basic latin character twice is the same as doing it
once: the image of `Char.toLower` contains no upper-case letter. -/
theorem charToLower_idem (c : Char) : c.toLower.toLower = c.toLower := by
  unfold Char.toLower
  by_cases h : c.toNat ≥ 65 ∧ c.toNat ≤ 90
  · rw [if_pos h]
    have hv : (Char.ofNat (c.toNat + 32)).toNat = c.toNat + 32 := by
      unfold Char.ofNat
      rw [dif_pos (Or.inl (by omega : c.toNat + 32 < 55296))]
      rfl
    rw [if_neg (by rw [hv]; omega)]
  · rw [if_neg h, if_neg h]

/-- Python's `lower` is idempotent. -/
theorem pyLower_idem (s : String) : pyLower (pyLower s) = pyLower s := by
  show String.mk ((s.data.map Char.toLower).map Char.toLower) = _
  rw [List.map_map]
  exact congrArg String.mk (List.map_congr_left fun c _ => charToLower_idem c)

/-- Every read operation keeps the database state unchanged: each of them
only executes SELECT statements. -/
theorem frame_helper (st : State) (n : String) (i : Int) (t : String) :
    (table_exists st).2 = st ∧ (get_pokemon_names st).2 = st ∧
    (get_pokemon_ids st).2 = st ∧ (get_stats_by_name n st).2 = st ∧
    (get_stats_by_id i st).2 = st ∧ (get_pokemon_types st).2 = st ∧
    (get_pokemon_by_type t st).2 = st := by
  cases st with
  | none => simp [table_exists, get_pokemon_names, get_pokemon_ids,
      get_stats_by_name, get_stats_by_id, get_pokemon_types,
      get_pokemon_by_type, exec]
  | some rows =>
    simp only [table_exists, get_pokemon_names, get_pokemon_ids,
      get_stats_by_name, get_stats_by_id, get_pokemon_types,
      get_pokemon_by_type, exec]
    refine ⟨?_, ?_, ?_, ?_, ?_, ?_, ?_⟩ <;>
      first
        | trivial
        | (split <;> rfl)

/-- Reference semantics of the loading loop: parse every data line in
order (all of them must parse). -/
def parseRows (hd : HeaderDict) : List String → Option (List Record)
  | [] => some []
  | l :: ls =>
    match parse_row hd l with
    | none => none
    | some r =>
      match parseRows hd ls with
      | none => none
      | some rs => some (r :: rs)

theorem insertRows_eq (hd : HeaderDict) :
    ∀ (ls : List String) (acc : List Record),
    insertRows hd ls (some acc) =
      match parseRows hd ls with
      | none => .error .rowError
      | some rs => .ok (some (acc ++ rs))
  | [], acc => by simp [insertRows, parseRows]
  | l :: ls, acc => by
    simp only [insertRows, parseRows]
    cases parse_row hd l with
    | none => rfl
    | some r =>
      simp only [exec]
      rw [insertRows_eq hd ls (acc ++ [r])]
      cases parseRows hd ls <;> simp

theorem create_table_eq_none {lines : List String} (st : State)
    (h : parse_header (headLine lines) = none) :
    create_table lines st = .error .schemaError := by
  unfold create_table
  simp only [exec, h]

theorem create_table_eq_some {lines : List String} (st : State)
    {hd : HeaderDict} (h : parse_header (headLine lines) = some hd) :
    create_table lines st =
      match parseRows hd lines.tail with
      | none => .error .rowError
      | some rs => .ok (some rs) := by
  unfold create_table
  simp only [exec, h]
  rw [insertRows_eq]
  cases parseRows hd lines.tail <;> simp

/-- A successful load is exactly a successful header parse followed by a
successful parse of every data line; the resulting table holds the parsed
records in file order. -/
theorem create_table_ok_elim {lines : List String} {st : State} {st' : State}
    (h : create_table lines st = .ok st') :
    ∃ hd rs, parse_header (headLine lines) = some hd ∧
      parseRows hd lines.tail = some rs ∧ st' = some rs := by
  cases hph : parse_header (headLine lines) with
  | none => rw [create_table_eq_none st hph] at h; exact absurd h (by simp)
  | some hd =>
    rw [create_table_eq_some st hph] at h
    cases hpr : parseRows hd lines.tail with
    | none => rw [hpr] at h; exact absurd h (by simp)
    | some rs =>
      rw [hpr] at h
      simp only [Except.ok.injEq] at h
      exact ⟨hd, rs, rfl, hpr, h.symm⟩

theorem create_table_ok_intro {lines : List String} (st : State)
    {hd : HeaderDict} {rs : List Record}
    (hph : parse_header (headLine lines) = some hd)
    (hpr : parseRows hd lines.tail = some rs) :
    create_table lines st = .ok (some rs) := by
  rw [create_table_eq_some st hph, hpr]

/-- The string fields of a parsed record are images of `pyLower`. -/
theorem parse_row_fields {hd : HeaderDict} {l : String} {r : Record}
    (h : parse_row hd l = some r) :
    ∃ p t1 t2 u e, r.name = pyLower p ∧ r.type_1 = pyLower t1 ∧
      r.type_2 = pyLower t2 ∧ r.url_image = pyLower u ∧
      r.evolves_from_species_id = pyLower e := by
  unfold parse_row at h
  simp only [Option.bind_eq_bind, Option.bind_eq_some, Option.pure_def,
    Option.some.injEq] at h
  obtain ⟨p, hp, sid_s, hsid_s, sid, hsid, h_s, hh_s, hv, hhv, w_s, hw_s, w,
    hw, t1, ht1, t2, ht2, u, hu, g_s, hg_s, g, hg, e, he, hr⟩ := h
  subst hr
  exact ⟨p, t1, t2, u, e, rfl, rfl, rfl, rfl, rfl⟩

/-- A line that strips to the empty string never parses: its only field
is the empty string, which fails the integer coercion of `species_id`
(or the field lookup, when the column index is positive). -/
theorem parse_row_blank {hd : HeaderDict} {l : String}
    (h : pyStrip l = "") : parse_row hd l = none := by
  cases hpr : parse_row hd l with
  | none => rfl
  | some r =>
    exfalso
    unfold parse_row at hpr
    rw [h, show pySplit "" SEP = [""] from rfl] at hpr
    simp only [Option.bind_eq_bind, Option.bind_eq_some, Option.pure_def,
      Option.some.injEq] at hpr
    obtain ⟨p, hp, sid_s, hsid_s, sid, hsid, -⟩ := hpr
    cases hs : hd.species_id with
    | zero =>
      rw [hs] at hsid_s
      simp only [List.getElem?_cons_zero, Option.some.injEq] at hsid_s
      subst hsid_s
      rw [show parse_int "" = none from rfl] at hsid
      exact Option.noConfusion hsid
    | succ k =>
      rw [hs] at hsid_s
      simp at hsid_s

theorem parseRows_length {hd : HeaderDict} :
    ∀ {ls : List String} {rs : List Record},
      parseRows hd ls = some rs → rs.length = ls.length
  | [], rs, h => by
    simp only [parseRows, Option.some.injEq] at h
    subst h
    rfl
  | l :: ls, rs, h => by
    simp only [parseRows] at h
    cases hr : parse_row hd l with
    | none => rw [hr] at h; exact Option.noConfusion h
    | some r =>
      rw [hr] at h
      cases hps : parseRows hd ls with
      | none => rw [hps] at h; exact Option.noConfusion h
      | some rs' =>
        rw [hps] at h
        cases Option.some.inj h
        simp [parseRows_length hps]

theorem parseRows_mem {hd : HeaderDict} :
    ∀ {ls : List String} {rs : List Record},
      parseRows hd ls = some rs →
      ∀ r ∈ rs, ∃ l ∈ ls, parse_row hd l = some r
  | [], rs, h => by
    simp only [parseRows, Option.some.injEq] at h
    subst h
    simp
  | l :: ls, rs, h => by
    simp only [parseRows] at h
    cases hr : parse_row hd l with
    | none => rw [hr] at h; exact Option.noConfusion h
    | some r =>
      rw [hr] at h
      cases hps : parseRows hd ls with
      | none => rw [hps] at h; exact Option.noConfusion h
      | some rs' =>
        rw [hps] at h
        cases Option.some.inj h
        intro r' hr'
        rcases List.mem_cons.mp hr' with rfl | hmem
        · exact ⟨l, List.mem_cons_self l ls, hr⟩
        · obtain ⟨l', hl', hpl'⟩ := parseRows_mem hps r' hmem
          exact ⟨l', List.mem_cons_of_mem l hl', hpl'⟩

theorem parseRows_lines {hd : HeaderDict} :
    ∀ {ls : List String} {rs : List Record},
      parseRows hd ls = some rs →
      ∀ l ∈ ls, ∃ r, parse_row hd l = some r
  | [], rs, h => by simp
  | l :: ls, rs, h => by
    simp only [parseRows] at h
    cases hr : parse_row hd l with
    | none => rw [hr] at h; exact Option.noConfusion h
    | some r =>
      rw [hr] at h
      cases hps : parseRows hd ls with
      | none => rw [hps] at h; exact Option.noConfusion h
      | some rs' =>
        intro l' hl'
        rcases List.mem_cons.mp hl' with rfl | hmem
        · exact ⟨r, hr⟩
        · exact parseRows_lines hps l' hmem

theorem lex_cons_inv {a b : Char} {l₁ l₂ : List Char} :
    List.Lex (· < ·) (a :: l₁) (b :: l₂) ↔
      a < b ∨ (a = b ∧ List.Lex (· < ·) l₁ l₂) := by
  constructor
  · intro h
    cases h with
    | cons h => exact Or.inr ⟨rfl, h⟩
    | rel h => exact Or.inl h
  · rintro (h | ⟨rfl, h⟩)
    · exact List.Lex.rel h
    · exact List.Lex.cons h

/-- The boolean comparison `charListLe` decides the reflexive closure of
the lexicographic strict order on character lists. -/
theorem charListLe_iff :
    ∀ (as bs : List Char),
      charListLe as bs = true ↔ (List.Lex (· < ·) as bs ∨ as = bs)
  | [], [] => by simp [charListLe]
  | [], b :: bs => by
    simp only [charListLe, true_iff]
    exact Or.inl List.Lex.nil
  | a :: as, [] => by
    simp [charListLe]
  | a :: as, b :: bs => by
    simp only [charListLe]
    by_cases hab : a < b
    · simp only [if_pos hab, true_iff]
      exact Or.inl (List.Lex.rel hab)
    · by_cases hba : b < a
      · simp only [if_neg hab, if_pos hba, Bool.false_eq_true, false_iff]
        rintro (h | h)
        · rcases lex_cons_inv.mp h with h' | ⟨rfl, -⟩
          · exact hab h'
          · exact hba.false
        · cases h
          exact hba.false
      · have heq : a = b := le_antisymm (le_of_not_lt hba) (le_of_not_lt hab)
        subst heq
        simp only [if_neg hab, if_neg hba]
        rw [charListLe_iff as bs]
        simp [lex_cons_inv]

/-- The comparison used by the model of Python's `sorted` agrees with the
lexicographic order `≤` on `String`. -/
theorem strLe_iff (a b : String) : strLe a b = true ↔ a ≤ b := by
  rw [String.le_iff_toList_le, le_iff_lt_or_eq, strLe, charListLe_iff]
  exact Iff.rfl

instance : IsTotal String (fun a b => strLe a b = true) :=
  ⟨fun a b => by
    rw [strLe_iff, strLe_iff]
    exact le_total a b⟩

instance : IsTrans String (fun a b => strLe a b = true) :=
  ⟨fun a b c hab hbc => by
    rw [strLe_iff] at *
    exact le_trans hab hbc⟩

theorem sortedStr_sorted (l : List String) :
    (sortedStr l).Sorted (· ≤ ·) :=
  (List.sorted_insertionSort _ l).imp fun h => (strLe_iff _ _).mp h

theorem sortedStr_perm (l : List String) : List.Perm (sortedStr l) l :=
  List.perm_insertionSort _ l

theorem unique_and_sort_sorted (l : List String) :
    (unique_and_sort l).Sorted (· ≤ ·) :=
  sortedStr_sorted _

theorem unique_and_sort_nodup (l : List String) :
    (unique_and_sort l).Nodup :=
  (sortedStr_perm _).nodup_iff.mpr (List.nodup_dedup l)

theorem unique_and_sort_mem (l : List String) (x : String) :
    x ∈ unique_and_sort l ↔ x ∈ l := by
  rw [unique_and_sort, (sortedStr_perm _).mem_iff, List.mem_dedup]

end Pokedex

/-!
Further auxiliary lemmas: header lookup and type collection.
-/

namespace Pokedex

/-- Loading ignores the previous database state: the table is dropped
and recreated before anything is read from the CSV. -/
theorem create_table_indep (lines : List String) (st₁ st₂ : State) :
    create_table lines st₁ = create_table lines st₂ := rfl

/-- Python's `list.index` (modelled by `indexOf?`) returns the position
of the first occurrence. -/
theorem indexOf?_spec {l : List String} {a : String} {i : Nat}
    (h : l.indexOf? a = some i) :
    l[i]? = some a ∧ ∀ j < i, l[j]? ≠ some a := by
  rw [List.indexOf?, List.findIdx?_eq_some_iff_getElem] at h
  obtain ⟨hlen, hp, hmin⟩ := h
  constructor
  · rw [List.getElem?_eq_getElem hlen]
    simpa using hp
  · intro j hj hEq
    have hjlen : j < l.length := Nat.lt_trans hj hlen
    rw [List.getElem?_eq_getElem hjlen] at hEq
    exact (hmin j hj) (by simp [Option.some.inj hEq])

theorem indexOf?_of_mem {l : List String} {a : String} (h : a ∈ l) :
    ∃ i, l.indexOf? a = some i := by
  have := List.findIdx?_eq_some_of_exists (p := (· == a)) ⟨a, h, by simp⟩
  exact ⟨_, by rw [List.indexOf?]; exact this⟩

theorem parse_header_some_elim {line : String} {hd : HeaderDict}
    (h : parse_header line = some hd) :
    (pySplit (pyStrip line) SEP).indexOf? "pokemon" = some hd.pokemon ∧
    (pySplit (pyStrip line) SEP).indexOf? "species_id" = some hd.species_id ∧
    (pySplit (pyStrip line) SEP).indexOf? "height" = some hd.height ∧
    (pySplit (pyStrip line) SEP).indexOf? "weight" = some hd.weight ∧
    (pySplit (pyStrip line) SEP).indexOf? "type_1" = some hd.type_1 ∧
    (pySplit (pyStrip line) SEP).indexOf? "type_2" = some hd.type_2 ∧
    (pySplit (pyStrip line) SEP).indexOf? "url_image" = some hd.url_image ∧
    (pySplit (pyStrip line) SEP).indexOf? "generation_id" =
      some hd.generation_id ∧
    (pySplit (pyStrip line) SEP).indexOf? "evolves_from_species_id" =
      some hd.evolves_from_species_id := by
  unfold parse_header at h
  simp only [Option.bind_eq_bind, Option.bind_eq_some, Option.pure_def,
    Option.some.injEq] at h
  obtain ⟨i1, h1, i2, h2, i3, h3, i4, h4, i5, h5, i6, h6, i7, h7, i8, h8,
    i9, h9, hr⟩ := h
  subst hr
  exact ⟨h1, h2, h3, h4, h5, h6, h7, h8, h9⟩

theorem parse_header_some_intro {line : String}
    {i1 i2 i3 i4 i5 i6 i7 i8 i9 : Nat}
    (h1 : (pySplit (pyStrip line) SEP).indexOf? "pokemon" = some i1)
    (h2 : (pySplit (pyStrip line) SEP).indexOf? "species_id" = some i2)
    (h3 : (pySplit (pyStrip line) SEP).indexOf? "height" = some i3)
    (h4 : (pySplit (pyStrip line) SEP).indexOf? "weight" = some i4)
    (h5 : (pySplit (pyStrip line) SEP).indexOf? "type_1" = some i5)
    (h6 : (pySplit (pyStrip line) SEP).indexOf? "type_2" = some i6)
    (h7 : (pySplit (pyStrip line) SEP).indexOf? "url_image" = some i7)
    (h8 : (pySplit (pyStrip line) SEP).indexOf? "generation_id" = some i8)
    (h9 : (pySplit (pyStrip line) SEP).indexOf? "evolves_from_species_id" =
      some i9) :
    parse_header line = some ⟨i1, i2, i3, i4, i5, i6, i7, i8, i9⟩ := by
  unfold parse_header
  simp [h1, h2, h3, h4, h5, h6, h7, h8, h9]

theorem mem_addIfNew (acc : List String) (x y : String) :
    y ∈ addIfNew acc x ↔ y ∈ acc ∨ y = x := by
  unfold addIfNew
  split
  · constructor
    · exact Or.inl
    · rintro (h | rfl)
      · exact h
      · assumption
  · simp

/-- Membership in the collection loop of `get_pokemon_types`. -/
theorem mem_typesFold :
    ∀ (rows : List Record) (acc : List String) (x : String),
      x ∈ rows.foldl
          (fun acc r => addIfNew (addIfNew acc r.type_1) r.type_2) acc ↔
        x ∈ acc ∨ ∃ r ∈ rows, r.type_1 = x ∨ r.type_2 = x
  | [], acc, x => by simp
  | r :: rows, acc, x => by
    rw [List.foldl_cons, mem_typesFold rows _ x, mem_addIfNew, mem_addIfNew]
    simp only [List.mem_cons]
    constructor
    · rintro (((h | rfl) | rfl) | ⟨r', hr', h⟩)
      · exact Or.inl h
      · exact Or.inr ⟨r, Or.inl rfl, Or.inl rfl⟩
      · exact Or.inr ⟨r, Or.inl rfl, Or.inr rfl⟩
      · exact Or.inr ⟨r', Or.inr hr', h⟩
    · rintro (h | ⟨r', hr'' | hr', h⟩)
      · exact Or.inl (Or.inl (Or.inl h))
      · subst hr''
        rcases h with rfl | rfl
        · exact Or.inl (Or.inl (Or.inr rfl))
        · exact Or.inl (Or.inr rfl)
      · exact Or.inr ⟨r', hr', h⟩

end Pokedex

/-!
The claims.
-/

namespace Pokedex

/-- C1: after a successful load, `get_pokemon_names` returns the name
field of every stored record (one per data row of the CSV, duplicates
preserved) in non-decreasing lexicographic order, and its length equals
the number of non-empty data rows of the CSV. -/
theorem load_listNames_spec (lines : List String) (st st' : State)
    (h : create_table lines st = .ok st') :
    ∃ rows names, st' = some rows ∧
      get_pokemon_names st' = (.ok names, st') ∧
      names.Sorted (· ≤ ·) ∧
      List.Perm names (rows.map Record.name) ∧
      names.length = lines.tail.countP (fun l => !(l == "")) := by
  obtain ⟨hd, rs, hph, hpr, rfl⟩ := create_table_ok_elim h
  refine ⟨rs, sortedStr (rs.map Record.name), rfl,
    by simp [get_pokemon_names, exec], sortedStr_sorted _,
    sortedStr_perm _, ?_⟩
  have hlen : (sortedStr (rs.map Record.name)).length = rs.length := by
    rw [(sortedStr_perm _).length_eq, List.length_map]
  rw [hlen, parseRows_length hpr]
  refine (List.countP_eq_length.mpr ?_).symm
  intro l' hl'
  obtain ⟨r, hr⟩ := parseRows_lines hpr l' hl'
  have hne : l' ≠ "" := by
    intro heq
    subst heq
    rw [parse_row_blank (show pyStrip "" = "" from rfl)] at hr
    exact Option.noConfusion hr
  simpa using hne

/-- Witness for C1 on the concrete sample CSV. -/
theorem load_listNames_spec_witness :
    ∃ rows names, (some [recSample] : State) = some rows ∧
      get_pokemon_names (some [recSample]) = (.ok names, some [recSample]) ∧
      names.Sorted (· ≤ ·) ∧
      List.Perm names (rows.map Record.name) ∧
      names.length = csvSample.tail.countP (fun l => !(l == "")) :=
  load_listNames_spec csvSample none (some [recSample]) (by decide)

/-- C2, counterexample to the claim as stated: on a store whose table
was never created, no stored row matches the queried name, yet
`get_stats_by_name` fails with `sqlite3.OperationalError` (the spec's
`SchemaError`), not with the `IndexError` that models `NotFoundError`. -/
theorem getByName_no_table_counterexample :
    get_stats_by_name "x" none = (.error .operationalError, none) ∧
    PyError.operationalError ≠ PyError.indexError :=
  ⟨rfl, by decide⟩

/-- C2 (amended to stores whose record table exists): when no stored row
has the queried name, `get_stats_by_name` fails with `IndexError`
(`NotFoundError`); when at least one row has that exact name, it returns
one matching row. -/
theorem get_stats_by_name_lookup (rows : List Record) (n : String) :
    ((∀ r ∈ rows, r.name ≠ n) →
      get_stats_by_name n (some rows) = (.error .indexError, some rows)) ∧
    ((∃ r ∈ rows, r.name = n) →
      ∃ r, get_stats_by_name n (some rows) = (.ok r, some rows) ∧
        r.name = n) := by
  constructor
  · intro hnone
    simp only [get_stats_by_name, exec]
    have hnil : rows.filter (fun r => r.name == n) = [] := by
      rw [List.filter_eq_nil_iff]
      intro r hr
      simp [hnone r hr]
    rw [hnil]
  · rintro ⟨r, hr, hname⟩
    simp only [get_stats_by_name, exec]
    have hmem : r ∈ rows.filter (fun r => r.name == n) :=
      List.mem_filter.mpr ⟨hr, by simp [hname]⟩
    cases hf : rows.filter (fun r => r.name == n) with
    | nil => rw [hf] at hmem; cases hmem
    | cons r0 rest =>
      refine ⟨r0, rfl, ?_⟩
      have h0 : r0 ∈ rows.filter (fun r => r.name == n) := by
        rw [hf]
        exact List.mem_cons_self _ _
      have := (List.mem_filter.mp h0).2
      simpa using this

/-- Witness for the amended C2 at concrete inputs: an absent and a
present name. -/
theorem get_stats_by_name_lookup_witness :
    get_stats_by_name "zzz" (some [recSample]) =
      (.error .indexError, some [recSample]) ∧
    ∃ r, get_stats_by_name "a" (some [recSample]) =
      (.ok r, some [recSample]) ∧ r.name = "a" :=
  ⟨(get_stats_by_name_lookup [recSample] "zzz").1 (by decide),
   (get_stats_by_name_lookup [recSample] "a").2 ⟨recSample, by decide, rfl⟩⟩

/-- C3: `table_exists` is true exactly when the record table exists and
holds at least one row; on a missing table (for example a freshly opened
store) it returns `false` instead of an error — its result type is a
plain boolean, no exception path exists. -/
theorem table_exists_spec (st : State) :
    ((table_exists st).1 = true ↔ ∃ rows, st = some rows ∧ rows ≠ []) ∧
    (st = none → table_exists st = (false, none)) := by
  cases st with
  | none => simp [table_exists, exec]
  | some rows => cases rows <;> simp [table_exists, exec]

/-- Witness for C3 on the never-loaded store. -/
theorem table_exists_spec_witness : table_exists none = (false, none) :=
  (table_exists_spec none).2 rfl

/-- C4: after every successful load each string field of every stored
row is lower-case (a fixed point of `pyLower`), and every read operation
leaves the state unchanged, so the invariant persists over the store's
lifetime — `create_table` is the only state-changing operation. -/
theorem load_lowercase_invariant (lines : List String) (st st' : State)
    (h : create_table lines st = .ok st') :
    (∃ rows, st' = some rows ∧ ∀ r ∈ rows,
      pyLower r.name = r.name ∧ pyLower r.type_1 = r.type_1 ∧
      pyLower r.type_2 = r.type_2 ∧ pyLower r.url_image = r.url_image ∧
      pyLower r.evolves_from_species_id = r.evolves_from_species_id) ∧
    (∀ n i t, (table_exists st').2 = st' ∧ (get_pokemon_names st').2 = st' ∧
      (get_pokemon_ids st').2 = st' ∧ (get_stats_by_name n st').2 = st' ∧
      (get_stats_by_id i st').2 = st' ∧ (get_pokemon_types st').2 = st' ∧
      (get_pokemon_by_type t st').2 = st') := by
  obtain ⟨hd, rs, hph, hpr, rfl⟩ := create_table_ok_elim h
  constructor
  · refine ⟨rs, rfl, fun r hr => ?_⟩
    obtain ⟨l, hl, hparse⟩ := parseRows_mem hpr r hr
    obtain ⟨p, t1, t2, u, e, h1, h2, h3, h4, h5⟩ := parse_row_fields hparse
    rw [h1, h2, h3, h4, h5]
    exact ⟨pyLower_idem p, pyLower_idem t1, pyLower_idem t2, pyLower_idem u,
      pyLower_idem e⟩
  · intro n i t
    exact frame_helper _ n i t

/-- Witness for C4 on the sample CSV, whose strings are upper-case. -/
theorem load_lowercase_invariant_witness :
    (∃ rows, (some [recSample] : State) = some rows ∧ ∀ r ∈ rows,
      pyLower r.name = r.name ∧ pyLower r.type_1 = r.type_1 ∧
      pyLower r.type_2 = r.type_2 ∧ pyLower r.url_image = r.url_image ∧
      pyLower r.evolves_from_species_id = r.evolves_from_species_id) ∧
    (∀ n i t, (table_exists (some [recSample])).2 = some [recSample] ∧
      (get_pokemon_names (some [recSample])).2 = some [recSample] ∧
      (get_pokemon_ids (some [recSample])).2 = some [recSample] ∧
      (get_stats_by_name n (some [recSample])).2 = some [recSample] ∧
      (get_stats_by_id i (some [recSample])).2 = some [recSample] ∧
      (get_pokemon_types (some [recSample])).2 = some [recSample] ∧
      (get_pokemon_by_type t (some [recSample])).2 = some [recSample]) :=
  load_lowercase_invariant csvSample none (some [recSample]) (by decide)

/-- C5: `get_pokemon_types` returns exactly the deduplicated set union
of the `type_1` and `type_2` values of all stored rows, sorted
ascending: no duplicates, every element is some row's type, and every
row's type value (the empty string included) appears. -/
theorem get_pokemon_types_spec (rows : List Record) :
    ∃ types, get_pokemon_types (some rows) = (.ok types, some rows) ∧
      types.Sorted (· ≤ ·) ∧ types.Nodup ∧
      (∀ x, x ∈ types ↔ ∃ r ∈ rows, r.type_1 = x ∨ r.type_2 = x) := by
  refine ⟨unique_and_sort (rows.foldl
      (fun acc r => addIfNew (addIfNew acc r.type_1) r.type_2) []),
    by simp [get_pokemon_types, exec], unique_and_sort_sorted _,
    unique_and_sort_nodup _, ?_⟩
  intro x
  rw [unique_and_sort_mem, mem_typesFold]
  simp

/-- C6: `get_pokemon_by_type` returns exactly the names of the rows
whose `type_1` or `type_2` equals the queried type, deduplicated and
sorted ascending; with no matching row it returns the empty list. -/
theorem get_pokemon_by_type_spec (rows : List Record) (t : String) :
    ∃ names, get_pokemon_by_type t (some rows) = (.ok names, some rows) ∧
      names.Sorted (· ≤ ·) ∧ names.Nodup ∧
      (∀ x, x ∈ names ↔
        ∃ r ∈ rows, r.name = x ∧ (r.type_1 = t ∨ r.type_2 = t)) ∧
      ((∀ r ∈ rows, ¬(r.type_1 = t ∨ r.type_2 = t)) → names = []) := by
  have hmem : ∀ x,
      x ∈ unique_and_sort
        ((rows.filter (fun r => r.type_1 == t || r.type_2 == t)).map
          Record.name) ↔
      ∃ r ∈ rows, r.name = x ∧ (r.type_1 = t ∨ r.type_2 = t) := by
    intro x
    rw [unique_and_sort_mem]
    simp only [List.mem_map, List.mem_filter, Bool.or_eq_true, beq_iff_eq]
    constructor
    · rintro ⟨r, ⟨hr, ht⟩, rfl⟩
      exact ⟨r, hr, rfl, ht⟩
    · rintro ⟨r, hr, rfl, ht⟩
      exact ⟨r, ⟨hr, ht⟩, rfl⟩
  refine ⟨unique_and_sort
      ((rows.filter (fun r => r.type_1 == t || r.type_2 == t)).map
        Record.name),
    by simp [get_pokemon_by_type, exec], unique_and_sort_sorted _,
    unique_and_sort_nodup _, hmem, ?_⟩
  intro hnone
  rw [List.eq_nil_iff_forall_not_mem]
  intro x hx
  obtain ⟨r, hr, -, ht⟩ := (hmem x).mp hx
  exact hnone r hr ht

/-- Witness for C6 with a type that matches no row. -/
theorem get_pokemon_by_type_spec_witness :
    ∃ names, get_pokemon_by_type "fire" (some [recSample]) =
      (.ok names, some [recSample]) ∧ names = [] := by
  obtain ⟨names, h1, -, -, -, h5⟩ :=
    get_pokemon_by_type_spec [recSample] "fire"
  exact ⟨names, h1, h5 (by decide)⟩

/-- C7: when every one of the nine required column names occurs in the
header (any order, extra columns ignored), `parse_header` succeeds and
maps each name to its first positional index; when some required name is
missing, the load fails with the `ValueError` of `list.index`, surfaced
as `SchemaError`. -/
theorem parse_header_spec (line : String) :
    ((∀ c ∈ requiredColumns, c ∈ pySplit (pyStrip line) SEP) →
      ∃ hd, parse_header line = some hd ∧
        ∀ p ∈ List.zip requiredColumns
            [hd.pokemon, hd.species_id, hd.height, hd.weight, hd.type_1,
             hd.type_2, hd.url_image, hd.generation_id,
             hd.evolves_from_species_id],
          (pySplit (pyStrip line) SEP)[p.2]? = some p.1 ∧
            ∀ j < p.2, (pySplit (pyStrip line) SEP)[j]? ≠ some p.1) ∧
    ((∃ c ∈ requiredColumns, c ∉ pySplit (pyStrip line) SEP) →
      ∀ (rest : List String) (st : State),
        create_table (line :: rest) st = .error .schemaError) := by
  constructor
  · intro hall
    obtain ⟨i1, h1⟩ :=
      indexOf?_of_mem (hall "pokemon" (by simp [requiredColumns]))
    obtain ⟨i2, h2⟩ :=
      indexOf?_of_mem (hall "species_id" (by simp [requiredColumns]))
    obtain ⟨i3, h3⟩ :=
      indexOf?_of_mem (hall "height" (by simp [requiredColumns]))
    obtain ⟨i4, h4⟩ :=
      indexOf?_of_mem (hall "weight" (by simp [requiredColumns]))
    obtain ⟨i5, h5⟩ :=
      indexOf?_of_mem (hall "type_1" (by simp [requiredColumns]))
    obtain ⟨i6, h6⟩ :=
      indexOf?_of_mem (hall "type_2" (by simp [requiredColumns]))
    obtain ⟨i7, h7⟩ :=
      indexOf?_of_mem (hall "url_image" (by simp [requiredColumns]))
    obtain ⟨i8, h8⟩ :=
      indexOf?_of_mem (hall "generation_id" (by simp [requiredColumns]))
    obtain ⟨i9, h9⟩ :=
      indexOf?_of_mem
        (hall "evolves_from_species_id" (by simp [requiredColumns]))
    refine ⟨⟨i1, i2, i3, i4, i5, i6, i7, i8, i9⟩,
      parse_header_some_intro h1 h2 h3 h4 h5 h6 h7 h8 h9, ?_⟩
    intro p hp
    simp only [requiredColumns, List.zip_cons_cons, List.zip_nil_left,
      List.mem_cons, List.not_mem_nil, or_false] at hp
    rcases hp with rfl | rfl | rfl | rfl | rfl | rfl | rfl | rfl | rfl
    · exact indexOf?_spec h1
    · exact indexOf?_spec h2
    · exact indexOf?_spec h3
    · exact indexOf?_spec h4
    · exact indexOf?_spec h5
    · exact indexOf?_spec h6
    · exact indexOf?_spec h7
    · exact indexOf?_spec h8
    · exact indexOf?_spec h9
  · rintro ⟨c, hc, hcnot⟩ rest st
    apply create_table_eq_none
    show parse_header line = none
    cases hph : parse_header line with
    | none => rfl
    | some hd =>
      exfalso
      obtain ⟨h1, h2, h3, h4, h5, h6, h7, h8, h9⟩ :=
        parse_header_some_elim hph
      simp only [requiredColumns, List.mem_cons, List.not_mem_nil,
        or_false] at hc
      apply hcnot
      rcases hc with rfl | rfl | rfl | rfl | rfl | rfl | rfl | rfl | rfl
      · exact List.getElem?_mem (indexOf?_spec h1).1
      · exact List.getElem?_mem (indexOf?_spec h2).1
      · exact List.getElem?_mem (indexOf?_spec h3).1
      · exact List.getElem?_mem (indexOf?_spec h4).1
      · exact List.getElem?_mem (indexOf?_spec h5).1
      · exact List.getElem?_mem (indexOf?_spec h6).1
      · exact List.getElem?_mem (indexOf?_spec h7).1
      · exact List.getElem?_mem (indexOf?_spec h8).1
      · exact List.getElem?_mem (indexOf?_spec h9).1

/-- Witness for C7: a header missing eight required names makes the load
fail with `SchemaError`, and the sample header parses with the claimed
index property. -/
theorem parse_header_spec_witness :
    create_table ["species_id"] none = .error .schemaError ∧
    ∃ hd, parse_header (headLine csvSample) = some hd ∧
      ∀ p ∈ List.zip requiredColumns
          [hd.pokemon, hd.species_id, hd.height, hd.weight, hd.type_1,
           hd.type_2, hd.url_image, hd.generation_id,
           hd.evolves_from_species_id],
        (pySplit (pyStrip (headLine csvSample)) SEP)[p.2]? = some p.1 ∧
          ∀ j < p.2,
            (pySplit (pyStrip (headLine csvSample)) SEP)[j]? ≠ some p.1 :=
  ⟨(parse_header_spec "species_id").2 ⟨"pokemon", by decide, by decide⟩
      [] none,
   (parse_header_spec (headLine csvSample)).1 (by decide)⟩

/-- C8: loading is idempotent — a second load of the same CSV reproduces
the same table state, hence the same row count and identical results for
every query. -/
theorem load_idempotent (lines : List String) (st st' : State)
    (h : create_table lines st = .ok st') :
    ∃ st'', create_table lines st' = .ok st'' ∧ st'' = st' ∧
      (∀ rows rows'', st' = some rows → st'' = some rows'' →
        rows''.length = rows.length) ∧
      get_pokemon_names st'' = get_pokemon_names st' ∧
      get_pokemon_ids st'' = get_pokemon_ids st' ∧
      (∀ n, get_stats_by_name n st'' = get_stats_by_name n st') ∧
      (∀ i, get_stats_by_id i st'' = get_stats_by_id i st') ∧
      get_pokemon_types st'' = get_pokemon_types st' ∧
      (∀ t, get_pokemon_by_type t st'' = get_pokemon_by_type t st') := by
  refine ⟨st', (create_table_indep lines st' st).trans h, rfl, ?_, rfl, rfl,
    fun n => rfl, fun i => rfl, rfl, fun t => rfl⟩
  intro rows rows'' h1 h2
  rw [h1] at h2
  cases Option.some.inj h2
  rfl

/-- Witness for C8 on the sample CSV. -/
theorem load_idempotent_witness :
    ∃ st'', create_table csvSample (some [recSample]) = .ok st'' ∧
      st'' = some [recSample] ∧
      (∀ rows rows'', (some [recSample] : State) = some rows →
        st'' = some rows'' → rows''.length = rows.length) ∧
      get_pokemon_names st'' = get_pokemon_names (some [recSample]) ∧
      get_pokemon_ids st'' = get_pokemon_ids (some [recSample]) ∧
      (∀ n, get_stats_by_name n st'' =
        get_stats_by_name n (some [recSample])) ∧
      (∀ i, get_stats_by_id i st'' =
        get_stats_by_id i (some [recSample])) ∧
      get_pokemon_types st'' = get_pokemon_types (some [recSample]) ∧
      (∀ t, get_pokemon_by_type t st'' =
        get_pokemon_by_type t (some [recSample])) :=
  load_idempotent csvSample none (some [recSample]) (by decide)

/-- C9: the concrete scenario — loading the scenario CSV stores exactly
the expected Bulbasaur record, and looking it up by its lower-cased name
returns it; its height and weight are the rationals 0.7 and 6.9. -/
theorem bulbasaur_scenario :
    create_table csv9 none = .ok (some [bulbasaur]) ∧
    get_stats_by_name "bulbasaur" (some [bulbasaur]) =
      (.ok bulbasaur, some [bulbasaur]) ∧
    bulbasaur = ⟨"bulbasaur", 1, mkRat 7 10, mkRat 69 10, "grass",
      "poison", "http://x", 1, ""⟩ ∧
    bulbasaur.height = 7 / 10 ∧ bulbasaur.weight = 69 / 10 := by
  refine ⟨by decide, by decide, rfl, ?_, ?_⟩
  · show mkRat 7 10 = 7 / 10
    rw [Rat.mkRat_eq_div]
    norm_num
  · show mkRat 69 10 = 69 / 10
    rw [Rat.mkRat_eq_div]
    norm_num

/-- C10: every read operation (`table_exists`, `get_pokemon_names`,
`get_pokemon_ids`, `get_stats_by_name`, `get_stats_by_id`,
`get_pokemon_types`, `get_pokemon_by_type`) leaves the table state
unchanged, whether it succeeds or fails. -/
theorem read_ops_preserve_state (st : State) (n : String) (i : Int)
    (t : String) :
    (table_exists st).2 = st ∧ (get_pokemon_names st).2 = st ∧
    (get_pokemon_ids st).2 = st ∧ (get_stats_by_name n st).2 = st ∧
    (get_stats_by_id i st).2 = st ∧ (get_pokemon_types st).2 = st ∧
    (get_pokemon_by_type t st).2 = st :=
  frame_helper st n i t

end Pokedex
